import Mathlib

/-!
Verification of the resilient segmentation and extraction pipeline of the
summarize-files repository, against its Python sources.

The embedding below translates the relevant functions of
summarize_pdfs.py, analyze_problematic_page.py and quick_page_detector.py
into Lean definitions.  Page counts and page indices that the Python code
manipulates as unbounded ints are modelled as Int where Python arithmetic
can go negative (the chunk planner) and as Nat where the code only ever
sees list indices.  The while loop of create_pdf_chunks is modelled with
explicit fuel: a result of none means the loop did not finish within the
given number of iterations, and a statement that the result is none for
every fuel expresses that the loop never terminates.
-/

namespace SummarizeFiles

/-!
### Chunk planner (summarize_pdfs.py, create_pdf_chunks, lines 153-185)

The Python loop is

  start_page = 0
  while start_page < total_pages:
      end_page = min(start_page + max_pages, total_pages)
      ... create chunk for [start_page, end_page) ...
      start_page += max_pages - overlap

and before the loop the function returns the input file itself as the one
chunk when total_pages <= max_pages.  The single-file return is modelled
as the full-range plan (0, total_pages).  A produced chunk is modelled by
its half-open page range (start_page, end_page).
-/

/-- One iteration step of the while loop of create_pdf_chunks, with fuel.
Returns none when fuel runs out before the loop condition fails, which is
how the model expresses a loop that is still running. -/
def chunkLoop (maxPages overlap totalPages : Int) : Nat → Int → Option (List (Int × Int))
  | 0, _ => none
  | fuel + 1, start =>
    if start < totalPages then
      match chunkLoop maxPages overlap totalPages fuel (start + (maxPages - overlap)) with
      | none => none
      | some rest => some ((start, min (start + maxPages) totalPages) :: rest)
    else
      some []

/-- Model of create_pdf_chunks (summarize_pdfs.py lines 153-185): the list
of half-open page ranges of the produced chunks.  The early return of the
whole input file when total_pages <= max_pages is the plan
(0, totalPages). -/
def create_pdf_chunks (totalPages maxPages overlap : Int) (fuel : Nat) :
    Option (List (Int × Int)) :=
  if totalPages ≤ maxPages then some [(0, totalPages)]
  else chunkLoop maxPages overlap totalPages fuel 0

/-- When the loop condition fails, the loop stops at once with no plans. -/
lemma chunkLoop_stop (maxPages overlap totalPages : Int) (fuel : Nat) (start : Int)
    (h : ¬ start < totalPages) :
    chunkLoop maxPages overlap totalPages (fuel + 1) start = some [] := by
  simp [chunkLoop, h]

/-- With overlap at least maxPages the per-iteration advance
maxPages - overlap is nonpositive, so the loop condition never fails:
for every fuel the loop is still running. -/
lemma chunkLoop_stuck (maxPages overlap totalPages : Int) (hov : maxPages ≤ overlap) :
    ∀ (fuel : Nat) (start : Int), start < totalPages →
      chunkLoop maxPages overlap totalPages fuel start = none := by
  intro fuel
  induction fuel with
  | zero => intro start _; rfl
  | succ n ih =>
    intro start hstart
    have hnext : start + (maxPages - overlap) < totalPages := by omega
    simp [chunkLoop, hstart, ih _ hnext]

/-- Claim C1: with overlapPages at least maxPagesPerChunk and a document
larger than one chunk, create_pdf_chunks raises no ConfigurationError (no
such check exists in the source) and instead loops forever without
advancing: for every amount of fuel the loop has not terminated and no
plans are produced.  This refutes the claimed ConfigurationError. -/
theorem create_pdf_chunks_silently_loops (totalPages maxPages overlap : Int)
    (hmax : 0 ≤ maxPages) (hov : maxPages ≤ overlap) (hbig : maxPages < totalPages)
    (fuel : Nat) :
    create_pdf_chunks totalPages maxPages overlap fuel = none := by
  have hnle : ¬ totalPages ≤ maxPages := by omega
  have hzero : (0 : Int) < totalPages := by omega
  simp [create_pdf_chunks, hnle, chunkLoop_stuck maxPages overlap totalPages hov fuel 0 hzero]

/-- Concrete instance of the silent loop: totalPages 12, maxPagesPerChunk
10, overlapPages 10 never terminates, here checked at fuel 7. -/
theorem create_pdf_chunks_silently_loops_witness :
    ((0 : Int) ≤ 10 ∧ (10 : Int) ≤ 10 ∧ (10 : Int) < 12) ∧
      create_pdf_chunks 12 10 10 7 = none :=
  ⟨by decide,
   create_pdf_chunks_silently_loops 12 10 10 (by decide) (by decide) (by decide) 7⟩

/-- Properties of the plans the loop produces from a given start page:
the plans cover exactly the pages in [start, totalPages); every plan ends
at the minimum of its start plus maxPages and totalPages; consecutive
plans advance by maxPages - overlap; the first plan starts at start; and
a loop entered with start at or past totalPages produces no plans. -/
abbrev PlanSpec (maxPages overlap totalPages start : Int)
    (plans : List (Int × Int)) : Prop :=
  (∀ p : Int, (start ≤ p ∧ p < totalPages) ↔ ∃ pl ∈ plans, pl.1 ≤ p ∧ p < pl.2) ∧
  (∀ pl ∈ plans, pl.2 = min (pl.1 + maxPages) totalPages) ∧
  List.Chain' (fun a b : Int × Int => b.1 = a.1 + (maxPages - overlap)) plans ∧
  (start < totalPages → plans.head? = some (start, min (start + maxPages) totalPages)) ∧
  (totalPages ≤ start → plans = [])

/-- A loop entered past the end satisfies the plan properties with no
plans. -/
lemma planSpec_stopped (maxPages overlap totalPages start : Int)
    (h : ¬ start < totalPages) :
    PlanSpec maxPages overlap totalPages start [] := by
  refine ⟨?_, ?_, List.chain'_nil, ?_, fun _ => rfl⟩
  · intro p
    constructor
    · rintro ⟨h1, h2⟩
      exact absurd h2 (by omega)
    · rintro ⟨pl, hpl, _⟩
      simp at hpl
  · intro pl hpl
    simp at hpl
  · intro hlt
    exact absurd hlt h

/-- With a positive advance per iteration and enough fuel, the while loop
of create_pdf_chunks terminates and its plans satisfy PlanSpec. -/
lemma chunkLoop_spec (maxPages overlap totalPages : Int)
    (hov : 0 ≤ overlap) (hlt : overlap < maxPages) :
    ∀ (fuel : Nat) (start : Int), totalPages ≤ start + (fuel : Int) →
      ∃ plans, chunkLoop maxPages overlap totalPages (fuel + 1) start = some plans ∧
        PlanSpec maxPages overlap totalPages start plans := by
  intro fuel
  induction fuel with
  | zero =>
    intro start hstart
    have hstop : ¬ start < totalPages := by push_cast at hstart; omega
    exact ⟨[], chunkLoop_stop _ _ _ _ _ hstop, planSpec_stopped _ _ _ _ hstop⟩
  | succ n ih =>
    intro start hstart
    by_cases hcond : start < totalPages
    · obtain ⟨rest, hrest, hcov, hends, hchain, hhead, hempty⟩ :=
        ih (start + (maxPages - overlap)) (by push_cast at hstart ⊢; omega)
      have hunfold : chunkLoop maxPages overlap totalPages (n + 1 + 1) start
          = if start < totalPages then
              match chunkLoop maxPages overlap totalPages (n + 1)
                  (start + (maxPages - overlap)) with
              | none => none
              | some rest => some ((start, min (start + maxPages) totalPages) :: rest)
            else some [] := rfl
      refine ⟨(start, min (start + maxPages) totalPages) :: rest, ?_, ?_, ?_, ?_, ?_, ?_⟩
      · rw [hunfold, if_pos hcond, hrest]
      · intro p
        constructor
        · rintro ⟨h1, h2⟩
          by_cases hp : p < min (start + maxPages) totalPages
          · exact ⟨(start, min (start + maxPages) totalPages), List.mem_cons_self _ _, h1, hp⟩
          · have hge : start + maxPages ≤ p := by
              rcases min_cases (start + maxPages) totalPages with ⟨he, _⟩ | ⟨he, _⟩ <;> omega
            obtain ⟨pl, hpl, hb⟩ := (hcov p).mp ⟨by omega, h2⟩
            exact ⟨pl, List.mem_cons_of_mem _ hpl, hb⟩
        · rintro ⟨pl, hpl, hb1, hb2⟩
          rcases List.mem_cons.mp hpl with rfl | hpl
          · exact ⟨hb1, lt_of_lt_of_le hb2 (min_le_right _ _)⟩
          · obtain ⟨hs, hp2⟩ := (hcov p).mpr ⟨pl, hpl, hb1, hb2⟩
            exact ⟨by omega, hp2⟩
      · intro pl hpl
        rcases List.mem_cons.mp hpl with rfl | hpl
        · rfl
        · exact hends pl hpl
      · refine List.chain'_cons'.mpr ⟨?_, hchain⟩
        intro b hb
        by_cases hfin : totalPages ≤ start + (maxPages - overlap)
        · rw [hempty hfin] at hb
          simp at hb
        · rw [hhead (by omega)] at hb
          rw [Option.mem_def, Option.some.injEq] at hb
          rw [← hb]
      · intro _
        rfl
      · intro h
        exact absurd hcond (not_lt.mpr h)
    · exact ⟨[], chunkLoop_stop _ _ _ _ _ hcond, planSpec_stopped _ _ _ _ hcond⟩

/-- Claim C2: for every valid configuration, the chunk planner terminates
(here with fuel totalPages + 1) and the union of the half-open ranges of
the produced plans is exactly the page interval from 0 to totalPages. -/
theorem create_pdf_chunks_covers (totalPages maxPages overlap : Int)
    (htotal : 0 < totalPages) (hmax : 0 < maxPages)
    (hov : 0 ≤ overlap) (hlt : overlap < maxPages) :
    ∃ plans,
      create_pdf_chunks totalPages maxPages overlap (totalPages.toNat + 1) = some plans ∧
      ∀ p : Int, (0 ≤ p ∧ p < totalPages) ↔ ∃ pl ∈ plans, pl.1 ≤ p ∧ p < pl.2 := by
  by_cases hfits : totalPages ≤ maxPages
  · refine ⟨[(0, totalPages)], by simp [create_pdf_chunks, hfits], ?_⟩
    intro p
    constructor
    · rintro ⟨h1, h2⟩
      exact ⟨(0, totalPages), by simp, h1, h2⟩
    · rintro ⟨pl, hpl, h1, h2⟩
      rw [List.mem_singleton] at hpl
      subst hpl
      exact ⟨h1, h2⟩
  · obtain ⟨plans, heq, hcov, _⟩ :=
      chunkLoop_spec maxPages overlap totalPages hov hlt totalPages.toNat 0 (by omega)
    exact ⟨plans, by simpa [create_pdf_chunks, hfits] using heq, hcov⟩

/-- Scenario instance for claim C2 at totalPages 250, maxPagesPerChunk
100, overlapPages 10. -/
theorem create_pdf_chunks_covers_witness :
    ((0 : Int) < 250 ∧ (0 : Int) < 100 ∧ (0 : Int) ≤ 10 ∧ (10 : Int) < 100) ∧
      ∃ plans,
        create_pdf_chunks 250 100 10 ((250 : Int).toNat + 1) = some plans ∧
        ∀ p : Int, (0 ≤ p ∧ p < 250) ↔ ∃ pl ∈ plans, pl.1 ≤ p ∧ p < pl.2 :=
  ⟨by decide, create_pdf_chunks_covers 250 100 10 (by decide) (by decide) (by decide) (by decide)⟩

/-- Counterexample to claim C3 as stated: with totalPages 12,
maxPagesPerChunk 10, overlapPages 5 the produced plans are (0, 10),
(5, 12), (10, 12); the third plan starts at 10, not at the end page of the
second plan minus the overlap, which would be 12 - 5 = 7, and the overlap
between the last two plans is 2 pages, not 5. -/
theorem create_pdf_chunks_start_counterexample :
    create_pdf_chunks 12 10 5 13 = some [(0, 10), (5, 12), (10, 12)] ∧
      ¬ ((10 : Int) = 12 - 5) := by
  constructor
  · rfl
  · decide

/-- Claim C3 (amended): every plan after the first starts at the previous
plan start plus maxPages - overlap, and every plan ends at the minimum of
its start plus maxPages and totalPages; hence a plan after the first
starts at the previous end minus the overlap whenever the previous plan
is full length, and the document scenario in the witness holds. -/
theorem create_pdf_chunks_adjacency (totalPages maxPages overlap : Int)
    (hbig : maxPages < totalPages) (hov : 0 ≤ overlap) (hlt : overlap < maxPages) :
    ∃ plans,
      create_pdf_chunks totalPages maxPages overlap (totalPages.toNat + 1) = some plans ∧
      plans.head? = some (0, maxPages) ∧
      List.Chain' (fun a b : Int × Int => b.1 = a.1 + (maxPages - overlap)) plans ∧
      ∀ pl ∈ plans, pl.2 = min (pl.1 + maxPages) totalPages := by
  have hfits : ¬ totalPages ≤ maxPages := not_le.mpr hbig
  obtain ⟨plans, heq, hcov, hends, hchain, hhead, hempty⟩ :=
    chunkLoop_spec maxPages overlap totalPages hov hlt totalPages.toNat 0 (by omega)
  refine ⟨plans, by simpa [create_pdf_chunks, hfits] using heq, ?_, hchain, hends⟩
  rw [hhead (by omega)]
  rw [zero_add, min_eq_left (le_of_lt hbig)]

/-- Scenario for the amended claim C3: totalPages 250, maxPagesPerChunk
100, overlapPages 10 yields exactly the plans (0, 100), (90, 190),
(180, 250), which also satisfy the amended adjacency properties. -/
theorem create_pdf_chunks_adjacency_witness :
    ((100 : Int) < 250 ∧ (0 : Int) ≤ 10 ∧ (10 : Int) < 100) ∧
      create_pdf_chunks 250 100 10 ((250 : Int).toNat + 1)
        = some [(0, 100), (90, 190), (180, 250)] ∧
      ∃ plans,
        create_pdf_chunks 250 100 10 ((250 : Int).toNat + 1) = some plans ∧
        plans.head? = some (0, 100) ∧
        List.Chain' (fun a b : Int × Int => b.1 = a.1 + (100 - 10)) plans ∧
        ∀ pl ∈ plans, pl.2 = min (pl.1 + 100) 250 :=
  ⟨by decide, by decide,
   create_pdf_chunks_adjacency 250 100 10 (by decide) (by decide) (by decide)⟩

/-- Claim C4: a document that fits in one chunk yields exactly one plan
spanning the whole document, for any fuel. -/
theorem create_pdf_chunks_single (totalPages maxPages overlap : Int) (fuel : Nat)
    (hpos : 0 < totalPages) (hfits : totalPages ≤ maxPages) :
    create_pdf_chunks totalPages maxPages overlap fuel = some [(0, totalPages)] := by
  simp [create_pdf_chunks, hfits]

/-- Scenario for claim C4: totalPages 50, maxPagesPerChunk 100 yields the
single plan (0, 50). -/
theorem create_pdf_chunks_single_witness :
    ((0 : Int) < 50 ∧ (50 : Int) ≤ 100) ∧
      create_pdf_chunks 50 100 5 1 = some [(0, 50)] :=
  ⟨by decide, create_pdf_chunks_single 50 100 5 1 (by decide) (by decide)⟩

/-!
### PDF concatenation (summarize_pdfs.py, concatenate_pdfs, lines 99-145)

A source document is modelled by what the merge loop can observe of it:
whether merging the whole file succeeds (merger.append on the path),
whether the file can at least be opened by PdfReader for the page-by-page
fallback, and for each page whether appending that single page succeeds.
Pages are identified by the pair of document index and local page index.
-/

structure SourceDoc where
  wholeOk : Bool
  readerOk : Bool
  pages : List Bool
deriving DecidableEq

/-- The pages one document contributes to the merger (lines 111-131):
all pages when the whole-file append succeeds; otherwise, if the file can
be opened, exactly the pages whose individual append succeeds; otherwise
nothing, and the loop continues with the next document. -/
def docContribution (i : Nat) (d : SourceDoc) : List (Nat × Nat) :=
  if d.wholeOk then
    (List.range d.pages.length).map (fun j => (i, j))
  else if d.readerOk then
    ((List.range d.pages.length).filter (fun j => d.pages.getD j false)).map (fun j => (i, j))
  else
    []

/-- The merge loop over all documents, carrying the index of the current
document. -/
def mergeDocs : Nat → List SourceDoc → List (Nat × Nat)
  | _, [] => []
  | i, d :: ds => docContribution i d ++ mergeDocs (i + 1) ds

/-- The documents for which the loop reports that the file could not be
added at all (line 130): whole-file append failed and the fallback reader
also failed. -/
def failedDocs : Nat → List SourceDoc → List Nat
  | _, [] => []
  | i, d :: ds =>
    (if !d.wholeOk && !d.readerOk then [i] else []) ++ failedDocs (i + 1) ds

/-- Observable outcome of concatenate_pdfs: whether the returned path is
the merged file or one of the inputs (and which input), which output
files the call attempts to write, which pages were merged, and which
documents were reported as complete failures. -/
structure ConcatOutcome where
  returnedMerged : Bool
  returnedIndex : Nat
  written : List String
  mergedPages : List (Nat × Nat)
  failed : List Nat
deriving DecidableEq

/-- Model of concatenate_pdfs (lines 99-145).  A single input file is
returned unchanged with nothing written or merged (lines 101-103).
Otherwise every document is processed by the merge loop and the result is
written to concatenated_document.pdf; if that write fails the function
falls back to returning the first input file (lines 140-145). -/
def concatenate_pdfs (docs : List SourceDoc) (writeOk : Bool) : ConcatOutcome :=
  if docs.length = 1 then
    ⟨false, 0, [], [], []⟩
  else if writeOk then
    ⟨true, 0, ["concatenated_document.pdf"], mergeDocs 0 docs, failedDocs 0 docs⟩
  else
    ⟨false, 0, ["concatenated_document.pdf"], mergeDocs 0 docs, failedDocs 0 docs⟩

/-- Pages contributed by the document at position i appear in the merge
loop output, whatever the other documents do. -/
lemma mem_mergeDocs (docs : List SourceDoc) :
    ∀ (n i : Nat) (hi : i < docs.length) (p : Nat × Nat),
      p ∈ docContribution (n + i) (docs.get ⟨i, hi⟩) → p ∈ mergeDocs n docs := by
  induction docs with
  | nil => intro n i hi; exact absurd hi (by simp)
  | cons d ds ih =>
    intro n i hi p hp
    match i with
    | 0 =>
      simp only [List.get] at hp
      exact List.mem_append_left _ hp
    | i + 1 =>
      have : p ∈ mergeDocs (n + 1) ds := by
        apply ih (n + 1) i (by simpa using hi)
        have harith : n + 1 + i = n + (i + 1) := by omega
        rw [harith]
        simpa using hp
      exact List.mem_append_right _ this

/-- Every index reported failed by the loop is at least the starting
index. -/
lemma failedDocs_ge (docs : List SourceDoc) :
    ∀ (n m : Nat), m ∈ failedDocs n docs → n ≤ m := by
  induction docs with
  | nil => intro n m h; simp [failedDocs] at h
  | cons d ds ih =>
    intro n m h
    rcases List.mem_append.mp h with h1 | h2
    · by_cases hc : !d.wholeOk && !d.readerOk
      · simp [hc] at h1
        omega
      · simp [hc] at h1
    · have := ih (n + 1) m h2
      omega

/-- The document at position i is reported as a complete failure exactly
when both the whole-file append and the fallback reader fail on it. -/
lemma mem_failedDocs (docs : List SourceDoc) :
    ∀ (n i : Nat) (hi : i < docs.length),
      ((n + i) ∈ failedDocs n docs ↔
        (docs.get ⟨i, hi⟩).wholeOk = false ∧ (docs.get ⟨i, hi⟩).readerOk = false) := by
  induction docs with
  | nil => intro n i hi; exact absurd hi (by simp)
  | cons d ds ih =>
    intro n i hi
    match i with
    | 0 =>
      simp only [List.get, Nat.add_zero]
      constructor
      · intro h
        rcases List.mem_append.mp h with h1 | h2
        · by_cases hc : !d.wholeOk && !d.readerOk
          · simpa using hc
          · simp [hc] at h1
        · have := failedDocs_ge ds (n + 1) n h2
          omega
      · rintro ⟨h1, h2⟩
        apply List.mem_append_left
        simp [failedDocs, h1, h2]
    | i + 1 =>
      have harith : n + (i + 1) = (n + 1) + i := by omega
      simp only [List.get]
      rw [harith, ← ih (n + 1) i (by simpa using hi)]
      constructor
      · intro h
        rcases List.mem_append.mp h with h1 | h2
        · by_cases hc : !d.wholeOk && !d.readerOk
          · simp [hc] at h1
            omega
          · simp [hc] at h1
        · exact h2
      · intro h
        exact List.mem_append_right _ h

/-- Claim C5: in a multi-file run, a document that is unreadable or not a
valid container is reported as a load failure for that document exactly
when both append paths fail on it, and it does not abort the loading of
the others: every document whose load succeeds still contributes all of
its pages to the merger. -/
theorem concatenate_pdfs_isolates (docs : List SourceDoc) (writeOk : Bool) (i : Nat)
    (hmulti : docs.length ≠ 1) (hi : i < docs.length) :
    ((docs.get ⟨i, hi⟩).wholeOk = true →
      ∀ j, j < (docs.get ⟨i, hi⟩).pages.length →
        (i, j) ∈ (concatenate_pdfs docs writeOk).mergedPages) ∧
    (i ∈ (concatenate_pdfs docs writeOk).failed ↔
      (docs.get ⟨i, hi⟩).wholeOk = false ∧ (docs.get ⟨i, hi⟩).readerOk = false) := by
  have hmerged : (concatenate_pdfs docs writeOk).mergedPages = mergeDocs 0 docs := by
    cases writeOk <;> simp [concatenate_pdfs, hmulti]
  have hfailed : (concatenate_pdfs docs writeOk).failed = failedDocs 0 docs := by
    cases writeOk <;> simp [concatenate_pdfs, hmulti]
  constructor
  · intro hwhole j hj
    rw [hmerged]
    apply mem_mergeDocs docs 0 i hi
    rw [Nat.zero_add]
    have hcontr : docContribution i (docs.get ⟨i, hi⟩)
        = (List.range (docs.get ⟨i, hi⟩).pages.length).map (fun j => (i, j)) := by
      unfold docContribution
      rw [if_pos hwhole]
    rw [hcontr]
    simp only [List.mem_map, List.mem_range]
    exact ⟨j, hj, rfl⟩
  · rw [hfailed]
    have := mem_failedDocs docs 0 i hi
    simpa using this

/-- Concrete instance for claim C5: with a healthy first document and a
completely unreadable second one, the first document still contributes
its page 1 to the merger. -/
theorem concatenate_pdfs_isolates_witness :
    ([⟨true, true, [true, true]⟩, ⟨false, false, [true]⟩] : List SourceDoc).length ≠ 1 ∧
      (0, 1) ∈ (concatenate_pdfs
        [⟨true, true, [true, true]⟩, ⟨false, false, [true]⟩] true).mergedPages := by
  refine ⟨by decide, ?_⟩
  have h := concatenate_pdfs_isolates
    [⟨true, true, [true, true]⟩, ⟨false, false, [true]⟩] true 0 (by decide) (by decide)
  exact h.1 rfl 1 (by decide)

/-- Claim C10: a one-element input list is returned unchanged: the result
is the input file itself, no output file is written, nothing is merged,
and no failure is reported. -/
theorem concatenate_pdfs_single_input (d : SourceDoc) (writeOk : Bool) :
    concatenate_pdfs [d] writeOk = ⟨false, 0, [], [], []⟩ := rfl

/-!
### Input discovery (summarize_pdfs.py, find_pdf_files, lines 73-97)

Filenames are modelled as lists of characters so that the Python
substring test (pattern in pdf.name) is the infix relation on lists.
The input list stands for the result of folder.glob on *.pdf.
-/

/-- The excluded filename patterns of line 79. -/
def excluded_patterns : List (List Char) :=
  ["chunk_".toList, "concatenated".toList, "_summary.pdf".toList,
   "_timeline.pdf".toList, "_dramatis_personae.pdf".toList]

/-- Model of find_pdf_files (lines 73-97): keep the files whose name
contains none of the excluded patterns. -/
def find_pdf_files (pdf_files : List (List Char)) : List (List Char) :=
  pdf_files.filter (fun name => ! excluded_patterns.any (fun pat => decide (pat <:+: name)))

/-- Claim C8: find_pdf_files returns exactly the input files whose names
contain none of the excluded substrings, so files generated by a previous
run, whose names contain one of them, are never selected. -/
theorem find_pdf_files_spec (pdf_files : List (List Char)) (f : List Char) :
    f ∈ find_pdf_files pdf_files ↔
      f ∈ pdf_files ∧ ∀ pat ∈ excluded_patterns, ¬ pat <:+: f := by
  simp [find_pdf_files, List.mem_filter]

/-- Concrete instance for claim C8: a case file is kept while chunk,
concatenation and summary outputs of a previous run are filtered out. -/
theorem find_pdf_files_spec_witness :
    "brief.pdf".toList ∈ find_pdf_files
      ["chunk_01_pages_001-030.pdf".toList, "brief.pdf".toList,
       "concatenated_document.pdf".toList, "overall_summary.pdf".toList] :=
  (find_pdf_files_spec _ _).mpr ⟨by decide, by decide⟩

/-!
### Chunk file creation (summarize_pdfs.py, _create_pdf_chunk, lines 187-200)

The Python loop copies pages with

  for page_num in range(start_page, min(end_page, len(reader.pages))):
      writer.add_page(reader.pages[page_num])

The source document is modelled as the list of its pages.
-/

/-- The page indices the copy loop visits: the Python expression
range(start_page, min(end_page, len(reader.pages))). -/
def chunk_page_range (startPage endPage pageCount : Nat) : List Nat :=
  List.range' startPage (min endPage pageCount - startPage)

/-- Model of _create_pdf_chunk (lines 187-200): the pages written to the
chunk file, in visit order. -/
def _create_pdf_chunk {α : Type} [Inhabited α] (pages : List α) (startPage endPage : Nat) :
    List α :=
  (chunk_page_range startPage endPage pages.length).map (fun i => pages.getD i default)

/-- Claim C9: the copy loop only visits indices below the page count, so
an end page beyond the document never causes an out-of-range access, and
the chunk holds exactly the pages with indices in the interval from
start_page to the minimum of end_page and the page count. -/
theorem create_pdf_chunk_spec {α : Type} [Inhabited α] (pages : List α) (s e : Nat) :
    (∀ i ∈ chunk_page_range s e pages.length, i < pages.length) ∧
    _create_pdf_chunk pages s e = (pages.drop s).take (e - s) := by
  constructor
  · intro i hi
    unfold chunk_page_range at hi
    have := List.mem_range'_1.mp hi
    omega
  · apply List.ext_getElem
    · simp [_create_pdf_chunk, chunk_page_range]
      omega
    · intro i h1 h2
      have hlen : i < (List.range' s (min e pages.length - s)).length := by
        simpa [_create_pdf_chunk, chunk_page_range] using h1
      have hi2 : s + i < pages.length := by
        simp [List.length_range'] at hlen
        omega
      calc (_create_pdf_chunk pages s e)[i]
          = pages.getD (s + i) default := by
            simp [_create_pdf_chunk, chunk_page_range, List.getElem_range'_1]
        _ = pages[s + i] := List.getD_eq_getElem pages default hi2
        _ = ((pages.drop s).take (e - s))[i] := by
            rw [List.getElem_take, List.getElem_drop]

/-- Concrete instance for claim C9: copying pages 1 to 5 out of a three
page document copies exactly pages 1 and 2. -/
theorem create_pdf_chunk_spec_witness :
    _create_pdf_chunk ["a", "b", "c"] 1 5 = ["b", "c"] :=
  (create_pdf_chunk_spec ["a", "b", "c"] 1 5).2.trans rfl

/-!
### Out-of-range page requests

analyze_problematic_page.py lines 67-81 (the inner function of
test_pypdf2_extraction) and quick_page_detector.py lines 10-64.  A
document is modelled by the list of its per-page observations; wall clock
timing is not modelled.
-/

/-- Result of the inner PyPDF2 extraction function: the extracted text,
or an error message in place of a value. -/
inductive PyPdf2Outcome where
  | ok (text : String)
  | err (msg : String)
deriving DecidableEq

/-- Model of extract_with_pypdf2 (analyze_problematic_page.py lines
67-81): a page index at or past the page count yields the out-of-range
error and no text. -/
def extract_with_pypdf2 (pages : List String) (page_num : Nat) : PyPdf2Outcome :=
  if page_num ≥ pages.length then PyPdf2Outcome.err "Page number out of range"
  else PyPdf2Outcome.ok (pages.getD page_num "")

/-- What pdfplumber exposes of a page to quick_page_detector.py: the
extracted text, the cell count of each detected table, the image count
and the page dimensions. -/
structure PlumberPage where
  text : List Char
  tableCellCounts : List Nat
  imageCount : Nat
  width : Nat
  height : Nat
deriving DecidableEq

/-- The characteristics record built by
detect_problematic_page_characteristics (quick_page_detector.py lines
26-47). -/
structure PageCharacteristics where
  page_number : Nat
  text_length : Nat
  has_tables : Bool
  table_count : Nat
  has_images : Bool
  image_count : Nat
  page_width : Nat
  page_height : Nat
  is_table_of_contents : Bool
  has_complex_layout : Bool
  text_sample : List Char
deriving DecidableEq

/-- Model of detect_problematic_page_characteristics
(quick_page_detector.py lines 10-64): none when the page index is out of
range (lines 16-18), otherwise the characteristics of the page.  Fields
are given in the order of the PageCharacteristics structure. -/
def detect_problematic_page_characteristics (pages : List PlumberPage) (page_num : Nat) :
    Option PageCharacteristics :=
  if page_num ≥ pages.length then none
  else
    let page := pages.getD page_num ⟨[], [], 0, 0, 0⟩
    let text := page.text
    let lower := text.map Char.toLower
    some ⟨page_num + 1,
      text.length,
      decide (0 < page.tableCellCounts.length),
      page.tableCellCounts.length,
      decide (0 < page.imageCount),
      page.imageCount,
      page.width,
      page.height,
      decide ("contents".toList <:+: lower) || decide ("table of contents".toList <:+: lower),
      page.tableCellCounts.any (fun c => decide (50 < c)),
      if 200 < text.length then text.take 200 ++ "...".toList else text⟩

/-- Claim C6: requesting a page at or past the total page count fails
with the out-of-range outcome in both tools, rather than returning any
page content. -/
theorem page_range_check (pages : List String) (ppages : List PlumberPage) (n m : Nat)
    (h1 : pages.length ≤ n) (h2 : ppages.length ≤ m) :
    extract_with_pypdf2 pages n = PyPdf2Outcome.err "Page number out of range" ∧
    detect_problematic_page_characteristics ppages m = none := by
  constructor
  · unfold extract_with_pypdf2
    rw [if_pos h1]
  · unfold detect_problematic_page_characteristics
    rw [if_pos h2]

/-- Concrete instance for claim C6: page 3 of a one page document is
rejected as out of range by both tools. -/
theorem page_range_check_witness :
    (["x"].length ≤ 3 ∧ ([] : List PlumberPage).length ≤ 0) ∧
      (extract_with_pypdf2 ["x"] 3 = PyPdf2Outcome.err "Page number out of range" ∧
       detect_problematic_page_characteristics [] 0 = none) :=
  ⟨by decide, page_range_check ["x"] [] 3 0 (by decide) (by decide)⟩

/-!
### Deadline handling (analyze_problematic_page.py, test_pypdf2_extraction,
lines 83-98)

The Python code is

  with ThreadPoolExecutor(max_workers=1) as executor:
      future = executor.submit(extract_with_pypdf2)
      text, extraction_time = future.result(timeout=timeout)
  ...
  except FuturesTimeoutError:
      result["pypdf2_timeout"] = True

The trace below records the operations performed on the pool and on the
future, in order.  Leaving the with block shuts the executor down by
waiting for its worker threads.
-/

/-- Operations the caller can perform on the thread pool and its
future. -/
inductive PoolAction where
  | submit
  | waitResult (timeoutSeconds : Nat)
  | cancel
  | shutdownWait
deriving DecidableEq

/-- The pool operations test_pypdf2_extraction performs (lines 83-98).
The trace is the same whether the attempt finishes in time or the wait
raises the timeout error: no branch of the source performs a cancel. -/
def test_pypdf2_extraction_pool_trace (timeoutSeconds : Nat) : List PoolAction :=
  [PoolAction.submit, PoolAction.waitResult timeoutSeconds, PoolAction.shutdownWait]

/-- Claim C7 is refuted by the source: on deadline elapse the caller only
stops waiting; no cancellation of the in-flight unit of work ever appears
in the pool trace, so the abandoned attempt keeps running in the
background. -/
theorem test_pypdf2_extraction_never_cancels (timeoutSeconds : Nat) :
    PoolAction.cancel ∉ test_pypdf2_extraction_pool_trace timeoutSeconds := by
  simp [test_pypdf2_extraction_pool_trace]

end SummarizeFiles
